import Mathlib

/-!
Verification of the ORM query-log analyzer and EXPLAIN-plan parser.

This file shallowly embeds the two Python modules
`query_analyzer.py` and `explain_parser.py` in Lean 4 and proves the
frozen specification claims about them.

Modelling conventions:
* Python strings are modelled as `List Nat` of character codes
  (inputs of interest are ASCII; `str.upper()` is modelled on the
  ASCII letter range, matching Python for ASCII input).
* Every `re.sub`-based transformation is hand-compiled to a
  deterministic scanner that implements exactly that pattern with
  the `re` module left-to-right, leftmost-match, non-overlapping
  substitution discipline.  The scanners use explicit fuel (bounded
  by the input length, which suffices since every match consumes at
  least one character) so that they are structurally recursive and
  kernel-evaluable.
* Python floats are modelled as exact rationals; all values the
  programs compute are small decimal fractions where float and
  rational arithmetic agree.
* Fallible code paths (`float(...)` raising `ValueError`) are
  modelled with `Except`.
-/

/-- Convert a Lean string literal to the character-code list model. -/
def str2l (s : String) : List Nat := s.toList.map Char.toNat

/-- Python `str.split()` whitespace: space, tab, newline, CR, VT, FF. -/
def isWsC (c : Nat) : Bool := c = 32 || c = 9 || c = 10 || c = 13 || c = 11 || c = 12

/-- Regex `\w` over ASCII: letters, digits, underscore. -/
def isWordC (c : Nat) : Bool :=
  (48 ≤ c && c ≤ 57) || (65 ≤ c && c ≤ 90) || (97 ≤ c && c ≤ 122) || c = 95

/-- Regex `\d`. -/
def isDigitC (c : Nat) : Bool := 48 ≤ c && c ≤ 57

/-- Regex class `[\d.]` (digit or dot). -/
def isDigitDotC (c : Nat) : Bool := isDigitC c || c = 46

/-- ASCII `str.upper()` on one character code. -/
def upC (c : Nat) : Nat := if 97 ≤ c && c ≤ 122 then c - 32 else c

/-- ASCII `str.lower()` on one character code. -/
def lowC (c : Nat) : Nat := if 65 ≤ c && c ≤ 90 then c + 32 else c

/-- `str.upper()`. -/
def upS (s : List Nat) : List Nat := s.map upC

/-- `str.lower()`. -/
def lowS (s : List Nat) : List Nat := s.map lowC

/-- Longest prefix of `s` whose characters satisfy `p`, and the rest. -/
def spanP (p : Nat → Bool) : List Nat → List Nat × List Nat
  | [] => ([], [])
  | c :: cs => if p c then
      let (a, b) := spanP p cs
      (c :: a, b)
    else ([], c :: cs)

theorem spanP_append (p : Nat → Bool) (s : List Nat) :
    (spanP p s).1 ++ (spanP p s).2 = s := by
  induction s with
  | nil => rfl
  | cons c cs ih =>
    simp only [spanP]
    split
    · simpa using ih
    · rfl

theorem spanP_snd_length (p : Nat → Bool) (s : List Nat) :
    (spanP p s).2.length ≤ s.length := by
  induction s with
  | nil => simp [spanP]
  | cons c cs ih =>
    simp only [spanP]
    split
    · simpa using Nat.le_succ_of_le ih
    · simp

/-- Python `str.strip()` restricted to whitespace. -/
def stripS (s : List Nat) : List Nat :=
  ((s.dropWhile (fun c => isWsC c)).reverse.dropWhile (fun c => isWsC c)).reverse

/-- Python `a in b` on strings: substring containment. -/
def containsSub (s pat : List Nat) : Bool :=
  match s with
  | [] => pat.isEmpty
  | _ :: cs => pat.isPrefixOf s || containsSub cs pat

/-- Number of decimal-digit characters for a `Nat` (Python `str(n)`). -/
def natStr (n : Nat) : List Nat := (Nat.toDigits 10 n).map Char.toNat

/-- Value of a decimal digit string. -/
def digitsVal (s : List Nat) : Nat := s.foldl (fun a c => a * 10 + (c - 48)) 0

/-!
Generic `re.sub` driver.  `tryM prev s` attempts a match at the start
of `s`; `prev` is the character immediately before the current
position in the *original* text (needed for `\b` word-boundary
tests).  On success it returns the replacement text and the number of
consumed characters (≥ 1, enforced by the `n + 1` pattern).  The
driver emits the replacement, records the last consumed character as
the new `prev`, and resumes after the match — exactly Python's
non-overlapping left-to-right substitution.  Fuel `s.length` is
sufficient because each step consumes at least one character.
-/

def subGo (tryM : Option Nat → List Nat → Option (List Nat × Nat)) :
    Nat → Option Nat → List Nat → List Nat
  | 0, _, s => s
  | _ + 1, _, [] => []
  | fuel + 1, prev, c :: cs =>
      match tryM prev (c :: cs) with
      | some (repl, n + 1) =>
          repl ++ subGo tryM fuel (((c :: cs).take (n + 1)).getLast? ) ((c :: cs).drop (n + 1))
      | some (_, 0) => c :: subGo tryM fuel (some c) cs
      | none => c :: subGo tryM fuel (some c) cs

/-- `re.sub` of one pattern over a whole string. -/
def subRe (tryM : Option Nat → List Nat → Option (List Nat × Nat)) (s : List Nat) : List Nat :=
  subGo tryM s.length none s

/-! ### normalize_query — the seven masking stages, in source order -/

/-- Stage 1, `re.sub(r'^Executing \([^)]+\):\s*', '', sql)` (anchored, so at
most one replacement at the very start). -/
def stripExecuting (s : List Nat) : List Nat :=
  if (str2l "Executing (").isPrefixOf s then
    let rest := s.drop 11
    match spanP (fun c => c ≠ 41) rest with
    | ([], _) => s
    | (_ :: _, r) =>
        match r with
        | 41 :: 58 :: r2 => (spanP (fun c => isWsC c) r2).2
        | _ => s
  else s

/-- Stage 2, `re.sub(r'^Query:\s*', '', sql)`. -/
def stripQueryPfx (s : List Nat) : List Nat :=
  if (str2l "Query:").isPrefixOf s then
    (spanP (fun c => isWsC c) (s.drop 6)).2
  else s

/-- Token list of `str.split()` (splits on whitespace runs, drops empties). -/
def wsTokens : List Nat → List (List Nat)
  | [] => [[]]
  | c :: cs =>
      match wsTokens cs with
      | [] => [[c]]
      | t :: ts => if isWsC c then [] :: t :: ts else (c :: t) :: ts

/-- Stage 3, `' '.join(sql.split())`. -/
def wsCollapse (s : List Nat) : List Nat :=
  List.intercalate [32] ((wsTokens s).filter (fun t => ¬ t.isEmpty))

/-- Scan for the closing quote of a string literal: consumes `[^'\\]`
single characters and `\\.` escape pairs (the dot does not match a
newline), returns the number of characters up to and including the
closing quote. -/
def quoteScan : List Nat → Option Nat
  | [] => none
  | 39 :: _ => some 1
  | 92 :: d :: rest => if d = 10 then none else (quoteScan rest).map (fun n => n + 2)
  | 92 :: [] => none
  | _ :: rest => (quoteScan rest).map (fun n => n + 1)

/-- Match attempt for `'(?:[^'\\]|\\.)*'`. -/
def trySQuote (_ : Option Nat) : List Nat → Option (List Nat × Nat)
  | 39 :: rest => (quoteScan rest).map (fun n => ([39, 63, 39], n + 1))
  | _ => none

/-- Stage 4, `re.sub(r"'(?:[^'\\]|\\.)*'", "'?'", sql)`. -/
def subSQuote (s : List Nat) : List Nat := subRe trySQuote s

/-- Match attempt for `\b\d+(?:\.\d+)?\b`.  The leading `\b` holds iff the
previous character is not a word character (match text starts with a
digit).  Greedy `\d+` takes the maximal digit run; the optional
`\.\d+` is taken when possible, and the final `\b` holds iff the next
unconsumed character is not a word character. -/
def tryNum (prev : Option Nat) (s : List Nat) : Option (List Nat × Nat) :=
  match s with
  | c :: _ =>
    if isDigitC c && (match prev with | some p => ! isWordC p | none => true) then
      let (ds, r1) := spanP isDigitC s
      match r1 with
      | 46 :: r2 =>
          match spanP isDigitC r2 with
          | ([], _) => some ([63], ds.length)
          | (ds2, r3) =>
              match r3 with
              | [] => some ([63], ds.length + 1 + ds2.length)
              | c2 :: _ =>
                  if isWordC c2 then some ([63], ds.length)
                  else some ([63], ds.length + 1 + ds2.length)
      | [] => some ([63], ds.length)
      | c1 :: _ => if isWordC c1 then none else some ([63], ds.length)
    else none
  | [] => none

/-- Stage 5, `re.sub(r'\b\d+(?:\.\d+)?\b', '?', sql)`. -/
def subNum (s : List Nat) : List Nat := subRe tryNum s

/-- Match attempt for `IN\s*\([^)]+\)` with `re.IGNORECASE`. -/
def tryInList (_ : Option Nat) (s : List Nat) : Option (List Nat × Nat) :=
  match s with
  | a :: b :: rest =>
      if (a = 73 ∨ a = 105) ∧ (b = 78 ∨ b = 110) then
        let (ws, r1) := spanP (fun c => isWsC c) rest
        match r1 with
        | 40 :: r2 =>
            match spanP (fun c => c ≠ 41) r2 with
            | ([], _) => none
            | (body, 41 :: _) =>
                some (str2l "IN (?)", 2 + ws.length + 1 + body.length + 1)
            | (_, _) => none
        | _ => none
      else none
  | _ => none

/-- Stage 6, `re.sub(r'IN\s*\([^)]+\)', 'IN (?)', sql, flags=re.IGNORECASE)`. -/
def subInList (s : List Nat) : List Nat := subRe tryInList s

/-- Match attempt for `\$\d+`. -/
def tryDollar (_ : Option Nat) : List Nat → Option (List Nat × Nat)
  | 36 :: rest =>
      match spanP isDigitC rest with
      | ([], _) => none
      | (ds, _) => some ([63], 1 + ds.length)
  | _ => none

/-- Stage 7a, `re.sub(r'\$\d+', '?', sql)`. -/
def subDollar (s : List Nat) : List Nat := subRe tryDollar s

/-- Match attempt for `:\w+`. -/
def tryColon (_ : Option Nat) : List Nat → Option (List Nat × Nat)
  | 58 :: rest =>
      match spanP isWordC rest with
      | ([], _) => none
      | (w, _) => some ([63], 1 + w.length)
  | _ => none

/-- Stage 7b, `re.sub(r':\w+', '?', sql)`. -/
def subColon (s : List Nat) : List Nat := subRe tryColon s

/-- Match attempt for `%\(\w+\)s`. -/
def tryPctParen (_ : Option Nat) : List Nat → Option (List Nat × Nat)
  | 37 :: 40 :: rest =>
      match spanP isWordC rest with
      | ([], _) => none
      | (w, 41 :: 115 :: _) => some ([63], 2 + w.length + 2)
      | (_, _) => none
  | _ => none

/-- Stage 7c, `re.sub(r'%\(\w+\)s', '?', sql)`. -/
def subPctParen (s : List Nat) : List Nat := subRe tryPctParen s

/-- Match attempt for `%s`. -/
def tryPctS (_ : Option Nat) : List Nat → Option (List Nat × Nat)
  | 37 :: 115 :: _ => some ([63], 2)
  | _ => none

/-- Stage 7d, `re.sub(r'%s', '?', sql)`. -/
def subPctS (s : List Nat) : List Nat := subRe tryPctS s

/-- `normalize_query` from `query_analyzer.py`: strip ORM prefixes,
collapse whitespace, mask string/numeric literals, `IN` lists and
parameter placeholders, then upper-case. -/
def normalize_query (sql : List Nat) : List Nat :=
  upS (subPctS (subPctParen (subColon (subDollar
    (subInList (subNum (subSQuote (wsCollapse
      (stripQueryPfx (stripExecuting sql))))))))))

/-! ### parse_query -/

/-- A parsed SQL query (dataclass `Query` in `query_analyzer.py`). -/
structure Query where
  raw : List Nat
  normalized : List Nat
  query_type : List Nat
  tables : List (List Nat)
  has_where : Bool
  has_limit : Bool
  has_join : Bool
  selects_all : Bool
  param_count : Nat
deriving DecidableEq, Repr

/-- One match attempt of `(?:FROM|JOIN|INTO|UPDATE)\s+["\']?(\w+)["\']?`
(alternatives tried left to right; the optional quotes are greedy but a
consumed opening quote must be followed by a word character, since
backtracking to the un-consumed branch would place `\w+` on the quote
itself).  Returns the captured table name and the consumed length. -/
def tryTableKw (kw : List Nat) (s : List Nat) : Option (List Nat × Nat) :=
  if kw.isPrefixOf s then
    let (ws, r1) := spanP (fun c => isWsC c) (s.drop kw.length)
    if ws.isEmpty then none
    else
      let (q1, r2) : Nat × List Nat :=
        match r1 with
        | 34 :: r => (1, r)
        | 39 :: r => (1, r)
        | r => (0, r)
      match spanP isWordC r2 with
      | ([], _) => none
      | (w, r3) =>
          let q2 : Nat := match r3 with
            | 34 :: _ => 1
            | 39 :: _ => 1
            | _ => 0
          some (w, kw.length + ws.length + q1 + w.length + q2)
  else none

def tryTable (s : List Nat) : Option (List Nat × Nat) :=
  match tryTableKw (str2l "FROM") s with
  | some r => some r
  | none =>
    match tryTableKw (str2l "JOIN") s with
    | some r => some r
    | none =>
      match tryTableKw (str2l "INTO") s with
      | some r => some r
      | none => tryTableKw (str2l "UPDATE") s

/-- `re.findall` driver for the table pattern: scan left to right,
collect captures of non-overlapping matches. -/
def findTablesGo : Nat → List Nat → List (List Nat)
  | 0, _ => []
  | _ + 1, [] => []
  | fuel + 1, c :: cs =>
      match tryTable (c :: cs) with
      | some (w, n + 1) => w :: findTablesGo fuel ((c :: cs).drop (n + 1))
      | some (_, 0) => findTablesGo fuel cs
      | none => findTablesGo fuel cs

def findTables (s : List Nat) : List (List Nat) := findTablesGo s.length s

/-- Deduplication keeping the first occurrence of each element, the
iteration order of Python dict keys.  (For `list(set(...))` the Python
order is unspecified; the model fixes first-occurrence order, and only
the multiplicity-free content — in particular the length — is used.) -/
def dedupFirstGo (seen : List (List Nat)) : List (List Nat) → List (List Nat)
  | [] => []
  | x :: xs =>
      if seen.contains x then dedupFirstGo seen xs
      else x :: dedupFirstGo (x :: seen) xs

def dedupFirst (l : List (List Nat)) : List (List Nat) := dedupFirstGo [] l

/-- Search for `SELECT\s+\*` anywhere in the string. -/
def hasSelectStar : List Nat → Bool
  | [] => false
  | c :: cs =>
      (if (str2l "SELECT").isPrefixOf (c :: cs) then
        match spanP (fun x => isWsC x) ((c :: cs).drop 6) with
        | ([], _) => false
        | (_ :: _, 42 :: _) => true
        | (_, _) => false
      else false) || hasSelectStar cs

/-- One match attempt of `\$\d+|\?|:\w+|%\(\w+\)s|%s` (alternatives in
source order), returning the consumed length. -/
def tryParam (s : List Nat) : Option Nat :=
  match s with
  | 36 :: rest =>
      (match spanP isDigitC rest with
       | ([], _) => none
       | (ds, _) => some (1 + ds.length))
  | 63 :: _ => some 1
  | 58 :: rest =>
      (match spanP isWordC rest with
       | ([], _) => none
       | (w, _) => some (1 + w.length))
  | 37 :: 40 :: rest =>
      (match spanP isWordC rest with
       | ([], _) => none
       | (w, 41 :: 115 :: _) => some (2 + w.length + 2)
       | (_, _) => none)
  | 37 :: 115 :: _ => some 2
  | _ => none

/-- `len(re.findall(r'\$\d+|\?|:\w+|%\(\w+\)s|%s', sql))`. -/
def countParamsGo : Nat → List Nat → Nat
  | 0, _ => 0
  | _ + 1, [] => 0
  | fuel + 1, c :: cs =>
      match tryParam (c :: cs) with
      | some (n + 1) => 1 + countParamsGo fuel ((c :: cs).drop (n + 1))
      | some 0 => countParamsGo fuel cs
      | none => countParamsGo fuel cs

def countParams (s : List Nat) : Nat := countParamsGo s.length s

/-- `parse_query` from `query_analyzer.py`. -/
def parse_query (sql : List Nat) : Query :=
  let normalized := normalize_query sql
  let upper_sql := upS sql
  let stripped := stripS upper_sql
  let query_type :=
    if (str2l "SELECT").isPrefixOf stripped then str2l "SELECT"
    else if (str2l "INSERT").isPrefixOf stripped then str2l "INSERT"
    else if (str2l "UPDATE").isPrefixOf stripped then str2l "UPDATE"
    else if (str2l "DELETE").isPrefixOf stripped then str2l "DELETE"
    else str2l "OTHER"
  { raw := sql
    normalized := normalized
    query_type := query_type
    tables := dedupFirst (findTables upper_sql)
    has_where := containsSub upper_sql (str2l "WHERE")
    has_limit := containsSub upper_sql (str2l "LIMIT")
    has_join := containsSub upper_sql (str2l "JOIN")
    selects_all := hasSelectStar upper_sql
    param_count := countParams sql }

/-! ### Issues and detectors -/

/-- A detected issue (dataclass `Issue` in `query_analyzer.py`). -/
structure Issue where
  severity : List Nat
  category : List Nat
  message : List Nat
  queries : List (List Nat)
  suggestion : List Nat
deriving DecidableEq, Repr

/-- Python `max(list)` (0 on the empty list, which never occurs in use). -/
def listMax (l : List Nat) : Nat := l.foldl Nat.max 0

/-- Python `min(list)` (0 on the empty list, which never occurs in use). -/
def listMin : List Nat → Nat
  | [] => 0
  | x :: xs => xs.foldl Nat.min x

/-- Indexed occurrences of one normalized text, in log order
(`normalized_groups[q.normalized].append((i, q))`). -/
def occOf (qs : List Query) (key : List Nat) : List (Nat × Query) :=
  qs.enum.filter (fun p => p.2.normalized == key)

/-- The qualifying condition of `detect_n_plus_one`: at least three
occurrences whose index span is at most twice the group size. -/
def nPlusOneQualifies (occ : List (Nat × Query)) : Bool :=
  decide (3 ≤ occ.length) &&
    decide (listMax (occ.map (·.1)) - listMin (occ.map (·.1)) ≤ occ.length * 2)

def mkNPlusOneIssue (occ : List (Nat × Query)) : Issue :=
  { severity := str2l "HIGH"
    category := str2l "N+1 Query"
    message := str2l "Detected " ++ natStr occ.length ++ str2l " similar queries executed in sequence"
    queries := (occ.take 3).map (fun p => p.2.raw)
    suggestion := str2l "Use eager loading (include/preload/prefetch_related) to fetch related data in one query" }

/-- `detect_n_plus_one`: group by normalized text (insertion order),
emit one HIGH issue per qualifying group; returns `None` — not an
empty list — when no group qualifies (`return issues if issues else None`). -/
def detect_n_plus_one (qs : List Query) : Option (List Issue) :=
  let keys := dedupFirst (qs.map (·.normalized))
  let issues := (keys.filter (fun k => nPlusOneQualifies (occOf qs k))).map
    (fun k => mkNPlusOneIssue (occOf qs k))
  if issues.isEmpty then none else some issues

/-- `detect_missing_where`: one MEDIUM issue per SELECT with neither
WHERE nor LIMIT. -/
def detect_missing_where (qs : List Query) : List Issue :=
  qs.flatMap (fun q =>
    if q.query_type == str2l "SELECT" && !q.has_where && !q.has_limit then
      [{ severity := str2l "MEDIUM"
         category := str2l "Missing WHERE"
         message := str2l "SELECT query without WHERE clause may cause full table scan"
         queries := [q.raw]
         suggestion := str2l "Add WHERE clause or LIMIT to prevent scanning entire table" }]
    else [])

/-- `detect_select_star`: a single LOW issue aggregating all
`SELECT *` occurrences, when any exist. -/
def detect_select_star (qs : List Query) : List Issue :=
  let ss := qs.filter (fun q => q.selects_all && q.query_type == str2l "SELECT")
  if ss.isEmpty then []
  else
    [{ severity := str2l "LOW"
       category := str2l "SELECT *"
       message := str2l "Found " ++ natStr ss.length ++ str2l " queries using SELECT *"
       queries := (ss.take 3).map (·.raw)
       suggestion := str2l "Select only needed columns to reduce data transfer and memory usage" }]

/-- `detect_duplicate_queries`: group by verbatim raw text; one MEDIUM
issue per group of at least three identical statements. -/
def detect_duplicate_queries (qs : List Query) : List Issue :=
  (dedupFirst (qs.map (·.raw))).flatMap (fun k =>
    let n := (qs.filter (fun q => q.raw == k)).length
    if 3 ≤ n then
      [{ severity := str2l "MEDIUM"
         category := str2l "Duplicate Query"
         message := str2l "Identical query executed " ++ natStr n ++ str2l " times"
         queries := [k]
         suggestion := str2l "Consider caching the result or restructuring code to avoid repeated queries" }]
    else [])

/-- Python `s.split(sep)` for a non-empty separator (leftmost,
non-overlapping); always returns at least one part. -/
def splitSubGo (sep : List Nat) : Nat → List Nat → List (List Nat)
  | _, [] => [[]]
  | 0, s => [s]
  | fuel + 1, c :: cs =>
      if sep.isPrefixOf (c :: cs) then
        [] :: splitSubGo sep fuel ((c :: cs).drop sep.length)
      else
        match splitSubGo sep fuel cs with
        | [] => [[c]]
        | t :: ts => (c :: t) :: ts

def splitSub (s sep : List Nat) : List (List Nat) := splitSubGo sep s.length s

/-- The comma test of `detect_cartesian_join`, line 228 of the source:
`',' in q.raw.upper().split('FROM')[1].split('WHERE')[0] if 'FROM' in
q.raw.upper() else False` — the conditional expression guards the
`[1]` indexing. -/
def cartesianCommaTest (q : Query) : Bool :=
  let up := upS q.raw
  if containsSub up (str2l "FROM") then
    !q.has_join &&
      containsSub ((splitSub (((splitSub up (str2l "FROM")).get? 1).getD [])
        (str2l "WHERE")).headD []) [44]
  else false

/-- `detect_cartesian_join`: one HIGH issue per SELECT naming more
than one extracted table, with no JOIN keyword and a comma between the
first FROM and the first WHERE. -/
def detect_cartesian_join (qs : List Query) : List Issue :=
  qs.flatMap (fun q =>
    if q.query_type == str2l "SELECT" && decide (1 < q.tables.length) && cartesianCommaTest q then
      [{ severity := str2l "HIGH"
         category := str2l "Cartesian Join"
         message := str2l "Possible Cartesian join detected (comma-separated tables)"
         queries := [q.raw]
         suggestion := str2l "Use explicit JOIN with ON clause to specify relationship" }]
    else [])

/-- `analyze_queries`: run all detectors and concatenate their issues
(`if n_plus_one:` is truthiness on `None`-or-nonempty-list). -/
def analyze_queries (qs : List Query) : List Issue :=
  (match detect_n_plus_one qs with
   | some l => l
   | none => []) ++
  detect_missing_where qs ++ detect_select_star qs ++
  detect_duplicate_queries qs ++ detect_cartesian_join qs

/-! ## explain_parser.py -/

/-- A node in the query plan (dataclass `ExplainNode`).  `children` and
`warnings` are always empty in the source and are omitted; `raw` keeps
the source line (for the JSON dialect the source stores a
`json.dumps` rendering, which the model does not reproduce and leaves
empty). -/
structure ExplainNode where
  node_type : List Nat
  relation : Option (List Nat)
  cost : Option ℚ
  rows : Option Int
  actual_time : Option ℚ
  actual_rows : Option Int
  loops : Option Int
  raw : List Nat
deriving DecidableEq, Repr

/-- A detected plan issue (dataclass `ExplainIssue`). -/
structure ExplainIssue where
  severity : List Nat
  node_type : List Nat
  message : List Nat
  suggestion : List Nat
deriving DecidableEq, Repr

/-- Python `str(i)` for the integers appearing in messages. -/
def intStr (i : Int) : List Nat :=
  if i < 0 then 45 :: natStr i.natAbs else natStr i.natAbs

/-- Python `x or default` for an optional string (`None` and the empty
string are falsy). -/
def orFalsy (o : Option (List Nat)) (d : List Nat) : List Nat :=
  match o with
  | some x => if x.isEmpty then d else x
  | none => d

/-- Python `float()` on the text matched by `[\d.]+`: digits with at
most one dot and at least one digit; anything else raises
(`none` here). -/
def parseFloatQ (s : List Nat) : Option ℚ :=
  let (a, r) := spanP isDigitC s
  match r with
  | [] => if a.isEmpty then none else some (mkRat (digitsVal a) 1)
  | 46 :: r2 =>
      let (b, r3) := spanP isDigitC r2
      if r3.isEmpty then
        if a.isEmpty && b.isEmpty then none
        else some (mkRat (digitsVal a * 10 ^ b.length + digitsVal b) (10 ^ b.length))
      else none
  | _ => none

/-- Match a literal, returning the remainder. -/
def litPfx (pat s : List Nat) : Option (List Nat) :=
  if pat.isPrefixOf s then some (s.drop pat.length) else none

/-- Candidates for splitting `([\d.]+)\.\.` with a greedy first group:
pairs of (captured group, remainder after the two dots), longest
capture first — the order a backtracking engine explores. -/
def ddSplitCands (s : List Nat) : List (List Nat × List Nat) :=
  let run := (spanP isDigitDotC s).1
  ((List.range (run.length + 1)).reverse.filter
      (fun k => decide (1 ≤ k) && [46, 46].isPrefixOf (s.drop k))).map
    (fun k => (s.take k, s.drop (k + 2)))

/-- Groups captured by the PostgreSQL plan-line pattern. -/
structure PGMatch where
  g1 : List Nat
  g2 : Option (List Nat)
  g3 : List Nat
  g4 : List Nat
  g5 : List Nat
  g6 : List Nat
  actual : Option (List Nat × List Nat × List Nat × List Nat)
deriving DecidableEq, Repr

/-- Parse `\(cost=([\d.]+)\.\.([\d.]+)\s+rows=(\d+)\s+width=(\d+)\)`
returning the four groups and the remainder. -/
def pgAfterCost (s : List Nat) : Option (List Nat × List Nat × List Nat × List Nat × List Nat) :=
  match litPfx (str2l "(cost=") s with
  | none => none
  | some s1 =>
      (ddSplitCands s1).findSome? (fun cand =>
        let g3 := cand.1
        let (g4, r2) := spanP isDigitDotC cand.2
        if g4.isEmpty then none else
        let (w1, r3) := spanP (fun c => isWsC c) r2
        if w1.isEmpty then none else
        match litPfx (str2l "rows=") r3 with
        | none => none
        | some r4 =>
            let (g5, r5) := spanP isDigitC r4
            if g5.isEmpty then none else
            let (w2, r6) := spanP (fun c => isWsC c) r5
            if w2.isEmpty then none else
            match litPfx (str2l "width=") r6 with
            | none => none
            | some r7 =>
                let (g6, r8) := spanP isDigitC r7
                if g6.isEmpty then none else
                match r8 with
                | 41 :: r9 => some (g3, g4, g5, g6, r9)
                | _ => none)

/-- Parse the optional
`\s*\(actual time=([\d.]+)\.\.([\d.]+)\s+rows=(\d+)\s+loops=(\d+)\)`
suffix. -/
def pgActual (s : List Nat) : Option (List Nat × List Nat × List Nat × List Nat) :=
  let r1 := (spanP (fun c => isWsC c) s).2
  match litPfx (str2l "(actual time=") r1 with
  | none => none
  | some r2 =>
      (ddSplitCands r2).findSome? (fun cand =>
        let g7 := cand.1
        let (g8, s2) := spanP isDigitDotC cand.2
        if g8.isEmpty then none else
        let (w1, s3) := spanP (fun c => isWsC c) s2
        if w1.isEmpty then none else
        match litPfx (str2l "rows=") s3 with
        | none => none
        | some s4 =>
            let (g9, s5) := spanP isDigitC s4
            if g9.isEmpty then none else
            let (w2, s6) := spanP (fun c => isWsC c) s5
            if w2.isEmpty then none else
            match litPfx (str2l "loops=") s6 with
            | none => none
            | some s7 =>
                let (g10, s8) := spanP isDigitC s7
                if g10.isEmpty then none else
                match s8 with
                | 41 :: _ => some (g7, g8, g9, g10)
                | _ => none)

/-- One attempt of the tail of the plan-line pattern for a fixed split
of leading junk `p` and lazy group length `g1len`: the optional
`(?:\s+on\s+([\w\.]+))?` (greedy, so the `on` branch is tried first)
followed by `\s*` and the cost/actual parts. -/
def pgTail (g1 rest : List Nat) : Option PGMatch :=
  let withOn :=
    let (w, rA) := spanP (fun c => isWsC c) rest
    if w.isEmpty then none else
    match litPfx (str2l "on") rA with
    | none => none
    | some rB =>
        let (w2, rC) := spanP (fun c => isWsC c) rB
        if w2.isEmpty then none else
        let (g2, rD) := spanP (fun c => isWordC c || c = 46) rC
        if g2.isEmpty then none else
        let rE := (spanP (fun c => isWsC c) rD).2
        match pgAfterCost rE with
        | none => none
        | some r =>
            some { g1 := g1, g2 := some g2, g3 := r.1, g4 := r.2.1, g5 := r.2.2.1,
                   g6 := r.2.2.2.1, actual := pgActual r.2.2.2.2 }
  match withOn with
  | some m => some m
  | none =>
      let rE := (spanP (fun c => isWsC c) rest).2
      match pgAfterCost rE with
      | none => none
      | some r =>
          some { g1 := g1, g2 := none, g3 := r.1, g4 := r.2.1, g5 := r.2.2.1,
                 g6 := r.2.2.2.1, actual := pgActual r.2.2.2.2 }

/-- `re.match` of
`^[\s\->]*([\w\s]+?)(?:\s+on\s+([\w\.]+))?\s*\(cost=...` against one
line.  The greedy leading `[\s\->]*` is explored longest-first, the
lazy `([\w\s]+?)` shortest-first, exactly the backtracking order of
the `re` engine. -/
def matchPG (line : List Nat) : Option PGMatch :=
  let pmax := (spanP (fun c => isWsC c || c = 45 || c = 62) line).1.length
  ((List.range (pmax + 1)).reverse).findSome? (fun p =>
    let s1 := line.drop p
    let wsRun := (spanP (fun c => isWordC c || isWsC c) s1).1.length
    (List.range' 1 wsRun).findSome? (fun g1len =>
      pgTail (s1.take g1len) (s1.drop g1len)))

/-- The row-estimate heuristic of `parse_postgres_explain` (lines
108–116): fires when actual rows are present, the estimate is
positive and the actual/estimated ratio is above 10 or below 0.1. -/
def rowRatioIssues (node_type : List Nat) (estimated_rows : Int) (actual_rows : Option Int) :
    List ExplainIssue :=
  match actual_rows with
  | none => []
  | some a =>
      if 0 < estimated_rows then
        -- `ratio = actual_rows / estimated_rows; ratio > 10 or ratio < 0.1`,
        -- in exact integer form (for `e > 0`: `a / e > 10` iff `10 * e < a`,
        -- and `a / e < 0.1` iff `10 * a < e`); the equivalence with the
        -- rational-ratio formulation is proved in the C6 theorem below.
        if 10 * estimated_rows < a ∨ 10 * a < estimated_rows then
          [{ severity := str2l "MEDIUM"
             node_type := node_type
             message := str2l "Row estimate mismatch: estimated " ++ intStr estimated_rows ++
               str2l ", actual " ++ intStr a
             suggestion := str2l "Run ANALYZE on the table to update statistics" }]
        else []
      else []

/-- Per-node issues of the PostgreSQL parser, in source order:
sequential scan, row-estimate mismatch, hot nested loop. -/
def pgNodeIssues (node_type : List Nat) (relation : Option (List Nat))
    (estimated_rows : Int) (actual_rows : Option Int) (loops : Option Int) :
    List ExplainIssue :=
  (if containsSub node_type (str2l "Seq Scan") then
    [{ severity := str2l "MEDIUM"
       node_type := node_type
       message := str2l "Sequential scan on " ++ orFalsy relation (str2l "table")
       suggestion := str2l "Consider adding an index on filtered/joined columns" }]
   else []) ++
  rowRatioIssues node_type estimated_rows actual_rows ++
  (if containsSub node_type (str2l "Nested Loop") &&
      (match loops with | some l => decide (100 < l) | none => false) then
    [{ severity := str2l "HIGH"
       node_type := node_type
       message := str2l "Nested loop with " ++ intStr (loops.getD 0) ++ str2l " iterations"
       suggestion := str2l "Consider using a hash or merge join, or add an index" }]
   else [])

/-- Node-and-issue contribution of one matched PostgreSQL plan line;
`Except.error` models the `ValueError` that `float()` raises on a
captured group with more than one dot. -/
def pgLineNode (line : List Nat) : Except Unit (List ExplainNode × List ExplainIssue) :=
  match matchPG line with
  | none => .ok ([], [])
  | some m =>
      match parseFloatQ m.g3 with
      | none => .error ()
      | some _ =>
          match parseFloatQ m.g4 with
          | none => .error ()
          | some total_cost =>
              let node_type := stripS m.g1
              let estimated_rows : Int := Int.ofNat (digitsVal m.g5)
              match m.actual with
              | some a =>
                  match parseFloatQ a.2.1 with
                  | none => .error ()
                  | some t =>
                      let actual_rows : Option Int := some (Int.ofNat (digitsVal a.2.2.1))
                      let loops : Option Int := some (Int.ofNat (digitsVal a.2.2.2))
                      .ok ([{ node_type := node_type, relation := m.g2,
                              cost := some total_cost, rows := some estimated_rows,
                              actual_time := some t, actual_rows := actual_rows,
                              loops := loops, raw := line }],
                           pgNodeIssues node_type m.g2 estimated_rows actual_rows loops)
              | none =>
                  .ok ([{ node_type := node_type, relation := m.g2,
                          cost := some total_cost, rows := some estimated_rows,
                          actual_time := none, actual_rows := none,
                          loops := none, raw := line }],
                       pgNodeIssues node_type m.g2 estimated_rows none none)

/-- `re.search(r'shared read=(\d+)', line)`: first position with the
literal followed by at least one digit. -/
def searchSharedRead : List Nat → Option (List Nat)
  | [] => none
  | c :: cs =>
      (if (str2l "shared read=").isPrefixOf (c :: cs) then
        match spanP isDigitC ((c :: cs).drop 12) with
        | ([], _) => none
        | (ds, _) => some ds
      else none).orElse (fun _ => searchSharedRead cs)

/-- The two extra line-level checks of `parse_postgres_explain`
(sort spill and high buffer reads); they run on every non-skipped
line, matched or not. -/
def pgExtraIssues (line : List Nat) : List ExplainIssue :=
  (if containsSub line (str2l "Sort Method: external") then
    [{ severity := str2l "HIGH"
       node_type := str2l "Sort"
       message := str2l "Sort spilling to disk"
       suggestion := str2l "Increase work_mem or optimize query to reduce sort size" }]
   else []) ++
  (if containsSub line (str2l "Buffers: shared read") then
    match searchSharedRead line with
    | some ds =>
        if 10000 < digitsVal ds then
          [{ severity := str2l "LOW"
             node_type := str2l "Buffer"
             message := str2l "High buffer reads: " ++ ds ++ str2l " pages"
             suggestion := str2l "Query may benefit from caching or index optimization" }]
        else []
    | none => []
   else [])

/-- Lines skipped entirely:
`line.strip().startswith(('Planning', 'Execution', 'Total runtime'))`. -/
def pgSkipLine (line : List Nat) : Bool :=
  (str2l "Planning").isPrefixOf (stripS line) ||
  (str2l "Execution").isPrefixOf (stripS line) ||
  (str2l "Total runtime").isPrefixOf (stripS line)

instance {e a : Type} [DecidableEq e] [DecidableEq a] : DecidableEq (Except e a) := fun x y =>
  match x, y with
  | .ok v, .ok w => if h : v = w then isTrue (by rw [h]) else isFalse (by simp [h])
  | .error v, .error w => if h : v = w then isTrue (by rw [h]) else isFalse (by simp [h])
  | .ok _, .error _ => isFalse (by simp)
  | .error _, .ok _ => isFalse (by simp)

def pgLines : List (List Nat) → Except Unit (List ExplainNode × List ExplainIssue)
  | [] => .ok ([], [])
  | line :: rest =>
      if pgSkipLine line then pgLines rest
      else
        match pgLineNode line with
        | .error e => .error e
        | .ok (ns, is1) =>
            match pgLines rest with
            | .error e => .error e
            | .ok (nsR, isR) => .ok (ns ++ nsR, is1 ++ pgExtraIssues line ++ isR)

/-- `parse_postgres_explain` over the raw text. -/
def parse_postgres_explain (text : List Nat) :
    Except Unit (List ExplainNode × List ExplainIssue) :=
  pgLines (splitSub (stripS text) [10])

/-! ### MySQL tabular fallback parser -/

/-- Header test: `'select_type' in line.lower() or line.startswith('+')`. -/
def mysqlHeaderLine (line : List Nat) : Bool :=
  containsSub (lowS line) (str2l "select_type") ||
    (match line with | 43 :: _ => true | _ => false)

/-- `[p.strip() for p in line.split('|') if p.strip()]`. -/
def mysqlCells (line : List Nat) : List (List Nat) :=
  ((splitSub line [124]).map stripS).filter (fun p => !p.isEmpty)

/-- Python `str.isdigit()` (ASCII): non-empty and all digits. -/
def isDigitStr (s : List Nat) : Bool := !s.isEmpty && s.all isDigitC

/-- Node-and-issue contribution of one line of MySQL tabular EXPLAIN
output. -/
def mysqlTabularLine (line : List Nat) : List ExplainNode × List ExplainIssue :=
  if mysqlHeaderLine line then ([], [])
  else
    let parts := mysqlCells line
    if 10 ≤ parts.length then
      let table := parts.get? 2
      let access_type := parts.get? 4
      let rows : Option Int :=
        match parts.get? 9 with
        | some p => if isDigitStr p then some (Int.ofNat (digitsVal p)) else none
        | none => none
      let extra := (parts.get? 11).getD []
      let node : ExplainNode :=
        { node_type := orFalsy access_type (str2l "UNKNOWN")
          relation := table
          cost := none
          rows := rows
          actual_time := none
          actual_rows := none
          loops := none
          raw := line }
      let issues :=
        (if access_type == some (str2l "ALL") then
          [{ severity := str2l "HIGH"
             node_type := str2l "Full Table Scan"
             message := str2l "Full table scan on " ++
               (match table with | some t => t | none => str2l "None")
             suggestion := str2l "Add an index on columns used in WHERE/JOIN" }]
         else []) ++
        (if access_type == some (str2l "index") then
          [{ severity := str2l "MEDIUM"
             node_type := str2l "Full Index Scan"
             message := str2l "Full index scan on " ++
               (match table with | some t => t | none => str2l "None")
             suggestion := str2l "Query may not be using index efficiently" }]
         else []) ++
        (if containsSub extra (str2l "Using filesort") then
          [{ severity := str2l "MEDIUM"
             node_type := str2l "Filesort"
             message := str2l "Using filesort for ORDER BY"
             suggestion := str2l "Add index that matches ORDER BY columns" }]
         else []) ++
        (if containsSub extra (str2l "Using temporary") then
          [{ severity := str2l "MEDIUM"
             node_type := str2l "Temporary Table"
             message := str2l "Creating temporary table"
             suggestion := str2l "Optimize query to avoid temporary tables" }]
         else [])
      ([node], issues)
    else ([], [])

/-- The tabular branch of `parse_mysql_explain` (reached when the
input is not JSON, or is JSON without a `query_block` key). -/
def parse_mysql_tabular (text : List Nat) : List ExplainNode × List ExplainIssue :=
  (splitSub (stripS text) [10]).foldr
    (fun line acc =>
      let r := mysqlTabularLine line
      (r.1 ++ acc.1, r.2 ++ acc.2))
    ([], [])

/-! ### MySQL JSON parser -/

/-- JSON documents as handed to `parse_mysql_explain_json`
(`json.loads` output). -/
inductive Json where
  | null : Json
  | bool : Bool → Json
  | num : ℚ → Json
  | str : List Nat → Json
  | arr : List Json → Json
  | obj : List (List Nat × Json) → Json

/-- `block.get(key)` on a dict (none on a non-dict, which in the
source would raise before reaching the access). -/
def jGet (j : Json) (k : List Nat) : Option Json :=
  match j with
  | .obj kvs => kvs.findSome? (fun p => if p.1 == k then some p.2 else none)
  | _ => none

/-- `data.get(key, default)`. -/
def jGetD (j : Json) (k : List Nat) (d : Json) : Json := (jGet j k).getD d

/-- Append two (nodes, issues) accumulator pairs. -/
def pbAppend (x y : List ExplainNode × List ExplainIssue) :
    List ExplainNode × List ExplainIssue :=
  (x.1 ++ y.1, x.2 ++ y.2)

/-- The `if 'table' in block:` part of `process_block`: one PlanNode
per embedded table fragment.  Numeric `read_cost` /
`rows_examined_per_scan` values are copied verbatim (non-numeric
values are not representable in the typed node and become `None`);
the `json.dumps` raw text is not reproduced. -/
def pbTable (block : Json) : List ExplainNode × List ExplainIssue :=
  match jGet block (str2l "table") with
  | some t =>
      let node : ExplainNode :=
        { node_type :=
            match jGet t (str2l "access_type") with
            | some (.str s) => s
            | _ => str2l "UNKNOWN"
          relation :=
            match jGet t (str2l "table_name") with
            | some (.str s) => some s
            | _ => none
          cost :=
            match (jGet t (str2l "cost_info")).bind
                (fun ci => jGet ci (str2l "read_cost")) with
            | some (.num q) => some q
            | _ => none
          rows :=
            match jGet t (str2l "rows_examined_per_scan") with
            | some (.num q) => if q.den = 1 then some q.num else none
            | _ => none
          actual_time := none
          actual_rows := none
          loops := none
          raw := [] }
      let issues :=
        if (match jGet t (str2l "access_type") with
            | some (.str s) => s == str2l "ALL"
            | _ => false) then
          [{ severity := str2l "HIGH"
             node_type := str2l "Full Table Scan"
             message := str2l "Full table scan on " ++
               (match jGet t (str2l "table_name") with
                | some (.str s) => s
                | _ => str2l "None")
             suggestion := str2l "Add an index on columns used in WHERE/JOIN" }]
        else []
      ([node], issues)
  | none => ([], [])

/-- `block[key] if isinstance(block[key], list) else [block[key]]`. -/
def pbItems : Json → List Json
  | .arr l => l
  | x => [x]

/-- `if isinstance(item, dict): process_block(item, ...)`. -/
def pbItem (f : Json → List ExplainNode × List ExplainIssue) (item : Json) :
    List ExplainNode × List ExplainIssue :=
  match item with
  | .obj _ => f item
  | _ => ([], [])

def pbFold (f : Json → List ExplainNode × List ExplainIssue) (items : List Json) :
    List ExplainNode × List ExplainIssue :=
  items.foldr (fun item acc => pbAppend (pbItem f item) acc) ([], [])

/-- The `for key in ['nested_loop', 'query_block', ...]` descent for
one key. -/
def pbNested (f : Json → List ExplainNode × List ExplainIssue) (block : Json)
    (key : List Nat) : List ExplainNode × List ExplainIssue :=
  match jGet block key with
  | some v => pbFold f (pbItems v)
  | none => ([], [])

/-- The four nesting keys of `process_block`, in source order. -/
def pbKeys : List (List Nat) :=
  [str2l "nested_loop", str2l "query_block",
   str2l "ordering_operation", str2l "grouping_operation"]

/-- The recursive `process_block`, with explicit fuel — the source
recursion terminates because each call descends into a proper
sub-document. -/
def processBlock : Nat → Json → List ExplainNode × List ExplainIssue
  | 0, _ => ([], [])
  | fuel + 1, block =>
      pbAppend (pbTable block)
        (pbKeys.foldr
          (fun k acc => pbAppend (pbNested (processBlock fuel) block k) acc) ([], []))

mutual

/-- Structural size of a JSON document, used as recursion fuel. -/
def jsonFuel : Json → Nat
  | .null => 1
  | .bool _ => 1
  | .num _ => 1
  | .str _ => 1
  | .arr l => 1 + jsonFuelL l
  | .obj l => 1 + jsonFuelKV l

def jsonFuelL : List Json → Nat
  | [] => 0
  | j :: js => jsonFuel j + jsonFuelL js

def jsonFuelKV : List (List Nat × Json) → Nat
  | [] => 0
  | (_, j) :: ps => jsonFuel j + jsonFuelKV ps

end

/-- `parse_mysql_explain_json(data)`: process
`data.get('query_block', data)`. -/
def parse_mysql_explain_json (data : Json) : List ExplainNode × List ExplainIssue :=
  processBlock (jsonFuel data) (jGetD data (str2l "query_block") data)

/-! ## Supporting lemmas -/

theorem flatMap_ite_length {α : Type} (p : α → Bool) (f : α → Issue) (qs : List α) :
    (qs.flatMap (fun q => if p q then [f q] else [])).length = (qs.filter p).length := by
  induction qs with
  | nil => rfl
  | cons q rest ih =>
    simp only [List.flatMap_cons, List.filter_cons, List.length_append]
    by_cases h : p q
    · simp [h, ih]; omega
    · simp [h, ih]

theorem mem_flatMap_ite {α : Type} (p : α → Bool) (f : α → Issue) (qs : List α) (iss : Issue)
    (h : iss ∈ qs.flatMap (fun q => if p q then [f q] else [])) :
    ∃ q ∈ qs, p q = true ∧ iss = f q := by
  rw [List.mem_flatMap] at h
  obtain ⟨q, hq, hmem⟩ := h
  by_cases hp : p q
  · simp only [hp, if_true, List.mem_singleton] at hmem
    exact ⟨q, hq, hp, hmem⟩
  · simp [hp] at hmem

theorem flatMap_ite_length_le {α : Type} (p : α → Bool) (f : α → Issue) (qs : List α) :
    (qs.flatMap (fun q => if p q then [f q] else [])).length ≤ qs.length := by
  rw [flatMap_ite_length]
  exact List.length_filter_le _ _

/-! ## Claim theorems -/

/-- C3.  Normalization is deterministic (a pure function of the raw
text) and literal-insensitive: queries differing only in numeric or
quoted-string literal values normalize to the same string; in
particular `SELECT * FROM t WHERE id = 1` and
`SELECT * FROM t WHERE id = 42` normalize identically. -/
theorem normalize_deterministic_literal_insensitive :
    (∀ s : List Nat, normalize_query s = normalize_query s)
    ∧ normalize_query (str2l "SELECT * FROM t WHERE id = 1")
        = normalize_query (str2l "SELECT * FROM t WHERE id = 42")
    ∧ normalize_query (str2l "SELECT * FROM t WHERE id = 1")
        = str2l "SELECT * FROM T WHERE ID = ?"
    ∧ normalize_query (str2l "SELECT * FROM t WHERE name = " ++ [39] ++ str2l "bob" ++ [39])
        = normalize_query (str2l "SELECT * FROM t WHERE name = " ++ [39] ++ str2l "alice" ++ [39]) :=
  ⟨fun _ => rfl, by decide, by decide, by decide⟩

/-- C2 (supporting evaluation).  The Cartesian-join detector does not
fire on the paradigm comma join `SELECT * FROM a, b WHERE a.id =
b.a_id`: the table-extraction pattern
`(?:FROM|JOIN|INTO|UPDATE)\s+(\w+)` only captures a name standing
directly after one of the keywords, so the query's extracted table
list is just `['A']`, the `len(q.tables) > 1` gate is false, and no
issue is emitted — although the comma test itself would pass.  The
explicit-JOIN form is (correctly) not flagged either. -/
theorem cartesian_join_paradigm_eval :
    (parse_query (str2l "SELECT * FROM a, b WHERE a.id = b.a_id")).tables = [str2l "A"]
    ∧ (parse_query (str2l "SELECT * FROM a, b WHERE a.id = b.a_id")).has_join = false
    ∧ cartesianCommaTest (parse_query (str2l "SELECT * FROM a, b WHERE a.id = b.a_id")) = true
    ∧ detect_cartesian_join [parse_query (str2l "SELECT * FROM a, b WHERE a.id = b.a_id")] = []
    ∧ (analyze_queries [parse_query (str2l "SELECT * FROM a, b WHERE a.id = b.a_id")]).filter
        (fun i => i.category == str2l "Cartesian Join") = []
    ∧ detect_cartesian_join [parse_query (str2l "SELECT * FROM a JOIN b ON a.id = b.a_id")] = [] := by
  refine ⟨by decide, by decide, by decide, by decide, by decide, by decide⟩

/-- C4 (counterexample).  The N+1 detector does not honour the uniform
`detect(queries) -> sequence of Issue` contract: when no group
qualifies it returns `None` (`return issues if issues else None`), not
an empty sequence. -/
theorem n_plus_one_returns_none_cex :
    detect_n_plus_one [] = none
    ∧ detect_n_plus_one [parse_query (str2l "SELECT * FROM users")] = none := by
  exact ⟨by decide, by decide⟩

/-- C4 (amended).  The detectors other than `detect_n_plus_one` return
(possibly empty) issue lists for every input; `detect_n_plus_one`
instead returns `None` exactly when no group qualifies, and any list
it does return is non-empty.  `analyze_queries` still always yields a
plain list. -/
theorem n_plus_one_option_contract :
    ∀ qs : List Query,
      (detect_n_plus_one qs = none ↔
        (dedupFirst (qs.map Query.normalized)).filter
          (fun k => nPlusOneQualifies (occOf qs k)) = [])
      ∧ (∀ l, detect_n_plus_one qs = some l → l ≠ []) := by
  intro qs
  constructor
  · simp only [detect_n_plus_one]
    split
    · rename_i h
      simp only [List.isEmpty_iff, List.map_eq_nil_iff] at h
      simp [h]
    · rename_i h
      simp only [List.isEmpty_iff, List.map_eq_nil_iff] at h
      simp [h]
  · intro l hl
    simp only [detect_n_plus_one] at hl
    split at hl
    · exact absurd hl (by simp)
    · rename_i h
      cases hl
      simpa [List.isEmpty_iff] using h

/-- C7.  The missing-filter detector emits exactly one MEDIUM
`Missing WHERE` issue per SELECT query with neither a WHERE clause nor
a LIMIT clause, each citing that query's raw text, and nothing for any
other query; the three paradigm examples behave as specified. -/
theorem missing_where_spec :
    (∀ qs : List Query,
      (detect_missing_where qs).length
        = (qs.filter (fun q =>
            q.query_type == str2l "SELECT" && !q.has_where && !q.has_limit)).length
      ∧ ∀ iss ∈ detect_missing_where qs,
          iss.severity = str2l "MEDIUM" ∧ iss.category = str2l "Missing WHERE" ∧
          ∃ q ∈ qs,
            (q.query_type == str2l "SELECT" && !q.has_where && !q.has_limit) = true ∧
            iss.queries = [q.raw])
    ∧ detect_missing_where [parse_query (str2l "SELECT * FROM users")]
        = [{ severity := str2l "MEDIUM"
             category := str2l "Missing WHERE"
             message := str2l "SELECT query without WHERE clause may cause full table scan"
             queries := [str2l "SELECT * FROM users"]
             suggestion := str2l "Add WHERE clause or LIMIT to prevent scanning entire table" }]
    ∧ detect_missing_where [parse_query (str2l "SELECT * FROM users LIMIT 10")] = []
    ∧ detect_missing_where [parse_query (str2l "SELECT * FROM users WHERE active = true")] = [] := by
  refine ⟨fun qs => ⟨flatMap_ite_length _ _ qs, fun iss hmem => ?_⟩, by decide, by decide, by decide⟩
  obtain ⟨q, hq, hp, heq⟩ := mem_flatMap_ite _ _ qs iss hmem
  subst heq
  exact ⟨rfl, rfl, q, hq, hp, rfl⟩

theorem splitSubGo_length_pos (sep : List Nat) (fuel : Nat) (s : List Nat) :
    1 ≤ (splitSubGo sep fuel s).length := by
  induction fuel generalizing s with
  | zero => cases s <;> simp [splitSubGo]
  | succ f ih =>
    cases s with
    | nil => simp [splitSubGo]
    | cons c cs =>
      simp only [splitSubGo]
      split
      · simp
      · split
        · simp
        · simp

theorem splitSubGo_length_two (sep : List Nat) (hne : sep ≠ []) (fuel : Nat) (s : List Nat)
    (hfuel : s.length ≤ fuel) (h : containsSub s sep = true) :
    2 ≤ (splitSubGo sep fuel s).length := by
  induction fuel generalizing s with
  | zero =>
    interval_cases hs : s.length
    · cases s with
      | nil =>
        simp only [containsSub, List.isEmpty_iff] at h
        exact absurd h hne
      | cons c cs => simp at hs
  | succ f ih =>
    cases s with
    | nil =>
      simp only [containsSub, List.isEmpty_iff] at h
      exact absurd h hne
    | cons c cs =>
      simp only [splitSubGo]
      split
      · simpa using splitSubGo_length_pos sep f ((c :: cs).drop sep.length)
      · rename_i hpfx
        simp only [containsSub, Bool.or_eq_true] at h
        rcases h with h | h
        · exact absurd h (by simpa using hpfx)
        · have hlen : cs.length ≤ f := by
            have : cs.length + 1 ≤ f + 1 := by simpa using hfuel
            omega
          have := ih cs hlen h
          revert this
          match splitSubGo sep f cs with
          | [] => intro h2; simp at h2
          | t :: ts => intro h2; simpa using h2

/-- C9.  Detectors are total on malformed input: every detector is a
total function, and in particular the only partial operation in
`detect_cartesian_join` — indexing `split('FROM')[1]` — is guarded by
the `if 'FROM' in q.raw.upper()` conditional: whenever the guard
holds, splitting on `FROM` yields at least two parts, splitting on
`WHERE` always yields at least one part, and SELECT queries with no
FROM or no WHERE produce zero issues rather than an error. -/
theorem detector_totality_guard :
    (∀ s : List Nat, containsSub s (str2l "FROM") = true →
      2 ≤ (splitSub s (str2l "FROM")).length)
    ∧ (∀ s : List Nat, 1 ≤ (splitSub s (str2l "WHERE")).length)
    ∧ (∀ qs : List Query, (detect_cartesian_join qs).length ≤ qs.length)
    ∧ (∀ qs : List Query, (detect_missing_where qs).length ≤ qs.length)
    ∧ detect_cartesian_join [parse_query (str2l "SELECT x")] = []
    ∧ detect_cartesian_join [parse_query (str2l "SELECT * FROM a, b")] = [] := by
  refine ⟨fun s h => splitSubGo_length_two _ (by decide) _ _ le_rfl h,
    fun s => splitSubGo_length_pos _ _ _,
    fun qs => flatMap_ite_length_le _ _ qs,
    fun qs => flatMap_ite_length_le _ _ qs,
    by decide, by decide⟩

/-- C10.  In the MySQL tabular fallback parser a line yields exactly
one PlanNode iff it is not a header line (no case-insensitive
`select_type`, does not start with `+`) and splitting on `|` leaves at
least 10 cells that are non-empty after trimming; any other line is
skipped without producing a node or an issue.  Over a whole input the
node count equals the number of such lines. -/
theorem mysql_tabular_line_iff :
    (∀ line : List Nat,
      ((mysqlTabularLine line).1.length = 1 ↔
        mysqlHeaderLine line = false ∧ 10 ≤ (mysqlCells line).length)
      ∧ (¬ (mysqlHeaderLine line = false ∧ 10 ≤ (mysqlCells line).length) →
          mysqlTabularLine line = ([], [])))
    ∧ (∀ text : List Nat,
        (parse_mysql_tabular text).1.length
          = ((splitSub (stripS text) [10]).filter
              (fun l => !mysqlHeaderLine l && decide (10 ≤ (mysqlCells l).length))).length) := by
  have hline : ∀ line : List Nat,
      (mysqlTabularLine line).1.length
        = if mysqlHeaderLine line = false ∧ 10 ≤ (mysqlCells line).length then 1 else 0 := by
    intro line
    simp only [mysqlTabularLine]
    by_cases h1 : mysqlHeaderLine line
    · simp [h1]
    · by_cases h2 : 10 ≤ (mysqlCells line).length
      · simp [h1, h2]
      · simp [h1, h2]
  constructor
  · intro line
    constructor
    · rw [hline line]
      split
      · rename_i h; simpa using h
      · rename_i h; simpa using h
    · intro h
      simp only [mysqlTabularLine]
      by_cases h1 : mysqlHeaderLine line
      · simp [h1]
      · by_cases h2 : 10 ≤ (mysqlCells line).length
        · exact absurd ⟨by simpa using h1, h2⟩ h
        · simp [h1, h2]
  · intro text
    simp only [parse_mysql_tabular]
    induction splitSub (stripS text) [10] with
    | nil => rfl
    | cons line rest ih =>
      simp only [List.foldr_cons, List.length_append, List.filter_cons, ih, hline line]
      by_cases h1 : mysqlHeaderLine line
      · simp [h1]
      · by_cases h2 : 10 ≤ (mysqlCells line).length
        · simp [h1, h2]; omega
        · simp [h1, h2]

/-! ### C1 concrete logs -/

/-- Five consecutive occurrences differing only in the numeric
literal, so they share one normalized text. -/
def burstLog : List Query :=
  (List.range 5).map (fun i =>
    parse_query (str2l "SELECT * FROM orders WHERE user_id = " ++ natStr (i + 1)))

/-- One occurrence of the burst query as a parsed record (the
`normalized` field is checked against the normalizer in the C1
theorem). -/
def targetQuery : Query :=
  { raw := str2l "SELECT * FROM orders WHERE user_id = 7"
    normalized := str2l "SELECT * FROM ORDERS WHERE USER_ID = ?"
    query_type := str2l "SELECT"
    tables := [str2l "ORDERS"]
    has_where := true
    has_limit := false
    has_join := false
    selects_all := true
    param_count := 0 }

/-- Filler queries for the spread scenario: 26 normalized texts
unrelated to the burst query, each itself scattered across the whole
log (none forms a qualifying group). -/
def unrelatedQuery (i : Nat) : Query :=
  { raw := [85, 95, 65 + i % 26]
    normalized := [85, 95, 65 + i % 26]
    query_type := str2l "SELECT"
    tables := []
    has_where := true
    has_limit := false
    has_join := false
    selects_all := false
    param_count := 0 }

/-- The same five occurrences at indices 0, 101, 202, 303 and 404 of a
505-entry log — spread across 500 unrelated queries. -/
def spreadLog : List Query :=
  (List.range 505).map (fun i =>
    if i % 101 = 0 then targetQuery else unrelatedQuery i)

set_option maxRecDepth 1000000 in
set_option maxHeartbeats 8000000 in
/-- C1.  The repeated-statement burst detector emits exactly one HIGH
`N+1 Query` issue per normalized-text group with at least 3
occurrences whose index span is at most twice the group size, citing
the raw text of the first 3 occurrences; 5 consecutive occurrences
yield exactly one HIGH issue with 3 sample raw queries, while the same
5 occurrences spread across 500 unrelated queries yield none. -/
theorem n_plus_one_burst_spec :
    (∀ qs : List Query,
      ((detect_n_plus_one qs).getD []).length
        = ((dedupFirst (qs.map Query.normalized)).filter
            (fun k => nPlusOneQualifies (occOf qs k))).length
      ∧ ∀ iss ∈ (detect_n_plus_one qs).getD [],
          iss.severity = str2l "HIGH" ∧ iss.category = str2l "N+1 Query" ∧
          ∃ k ∈ dedupFirst (qs.map Query.normalized),
            nPlusOneQualifies (occOf qs k) = true ∧
            iss.queries = ((occOf qs k).take 3).map (fun p => p.2.raw))
    ∧ targetQuery.normalized = normalize_query (str2l "SELECT * FROM orders WHERE user_id = 7")
    ∧ detect_n_plus_one burstLog
        = some [{ severity := str2l "HIGH"
                  category := str2l "N+1 Query"
                  message := str2l "Detected 5 similar queries executed in sequence"
                  queries := [str2l "SELECT * FROM orders WHERE user_id = 1",
                              str2l "SELECT * FROM orders WHERE user_id = 2",
                              str2l "SELECT * FROM orders WHERE user_id = 3"]
                  suggestion := str2l "Use eager loading (include/preload/prefetch_related) to fetch related data in one query" }]
    ∧ detect_n_plus_one spreadLog = none := by
  refine ⟨fun qs => ?_, by decide, by decide, by decide⟩
  constructor
  · simp only [detect_n_plus_one]
    split
    · rename_i h
      simp only [List.isEmpty_iff, List.map_eq_nil_iff] at h
      simp [h]
    · simp [List.length_map]
  · intro iss hmem
    simp only [detect_n_plus_one] at hmem
    split at hmem
    · simp at hmem
    · simp only [Option.getD_some, List.mem_map] at hmem
      obtain ⟨k, hk, rfl⟩ := hmem
      rw [List.mem_filter] at hk
      exact ⟨rfl, rfl, k, hk.1, hk.2, rfl⟩

/-- C6.  The PostgreSQL parser's row-estimate heuristic fires exactly
when actual rows are present, the estimate is positive, and the
actual/estimated ratio exceeds 10 or is below 0.1 — stated here with
the rational ratio, matching the source's float arithmetic exactly.
The issue is MEDIUM; `estimated_rows=100, actual_rows=5000` yields one
such issue and `estimated_rows=100, actual_rows=150` yields none. -/
theorem row_ratio_heuristic_spec :
    (∀ (nt : List Nat) (e a : Int), 0 < e →
      (rowRatioIssues nt e (some a) ≠ [] ↔
        (10 < (a : ℚ) / (e : ℚ) ∨ (a : ℚ) / (e : ℚ) < 1 / 10)))
    ∧ (∀ nt e, rowRatioIssues nt e none = [])
    ∧ (∀ nt e a, e ≤ 0 → rowRatioIssues nt e (some a) = [])
    ∧ (∀ nt e a, (rowRatioIssues nt e a).length ≤ 1)
    ∧ (∀ nt e a iss, iss ∈ rowRatioIssues nt e a →
        iss.severity = str2l "MEDIUM" ∧
        iss.suggestion = str2l "Run ANALYZE on the table to update statistics")
    ∧ (parse_postgres_explain (str2l "Index Scan on t  (cost=0.00..5.00 rows=100 width=4) (actual time=0.1..0.2 rows=5000 loops=1)")).map
        (fun r => r.2.map (fun i => (i.severity, i.message)))
        = .ok [(str2l "MEDIUM", str2l "Row estimate mismatch: estimated 100, actual 5000")]
    ∧ (parse_postgres_explain (str2l "Index Scan on t  (cost=0.00..5.00 rows=100 width=4) (actual time=0.1..0.2 rows=150 loops=1)")).map
        (fun r => r.2)
        = .ok [] := by
  refine ⟨fun nt e a he => ?_, fun nt e => rfl, fun nt e a he => ?_, fun nt e a => ?_,
    fun nt e a iss hmem => ?_, by decide, by decide⟩
  · have he2 : (0 : ℚ) < (e : ℚ) := by exact_mod_cast he
    have h1 : (10 < (a : ℚ) / (e : ℚ)) ↔ 10 * e < a := by
      rw [lt_div_iff₀ he2]
      norm_cast
    have h2 : ((a : ℚ) / (e : ℚ) < 1 / 10) ↔ 10 * a < e := by
      rw [div_lt_div_iff₀ he2 (by norm_num : (0 : ℚ) < 10)]
      constructor
      · intro h
        have h3 : (10 : ℚ) * a < 1 * e := by
          calc (10 : ℚ) * a = a * 10 := mul_comm _ _
          _ < 1 * e := h
        rw [one_mul] at h3
        exact_mod_cast h3
      · intro h
        have h3 : (10 : ℚ) * a < e := by exact_mod_cast h
        calc (a : ℚ) * 10 = 10 * a := mul_comm _ _
        _ < e := h3
        _ = 1 * e := (one_mul _).symm
    have key : rowRatioIssues nt e (some a) ≠ [] ↔ (10 * e < a ∨ 10 * a < e) := by
      simp only [rowRatioIssues, if_pos he]
      split
      · rename_i hc; simp [hc]
      · rename_i hc; simp [hc]
    exact key.trans (or_congr h1.symm h2.symm)
  · simp [rowRatioIssues, not_lt.mpr he]
  · cases a with
    | none => simp [rowRatioIssues]
    | some v =>
      simp only [rowRatioIssues]
      split
      · split
        · simp
        · simp
      · simp
  · cases a with
    | none => simp [rowRatioIssues] at hmem
    | some v =>
      simp only [rowRatioIssues] at hmem
      split at hmem
      · split at hmem
        · rw [List.mem_singleton] at hmem
          subst hmem
          exact ⟨rfl, rfl⟩
        · simp at hmem
      · simp at hmem

/-! ### C5: non-negativity of parsed plan nodes -/

theorem parseFloatQ_nonneg (s : List Nat) (q : ℚ) (h : parseFloatQ s = some q) : 0 ≤ q := by
  unfold parseFloatQ at h
  split at h
  split at h
  · split_ifs at h
    rw [← Option.some.inj h]
    apply Rat.mkRat_nonneg
    exact Int.natCast_nonneg _
  · split at h
    split_ifs at h
    rw [← Option.some.inj h]
    apply Rat.mkRat_nonneg
    positivity
  · exact absurd h (by simp)

theorem pgLineNode_nodes (line : List Nat) (ns : List ExplainNode) (is1 : List ExplainIssue)
    (h : pgLineNode line = .ok (ns, is1)) :
    ∀ node ∈ ns, (∀ c ∈ node.cost, 0 ≤ c) ∧ (∀ r ∈ node.rows, 0 ≤ r) := by
  intro node hmem
  simp only [pgLineNode] at h
  split at h
  · cases h; simp at hmem
  · split at h
    · exact absurd h (by simp)
    · split at h
      · exact absurd h (by simp)
      · rename_i total hg4
        split at h
        · split at h
          · exact absurd h (by simp)
          · simp only [Except.ok.injEq, Prod.mk.injEq] at h
            obtain ⟨hns, _⟩ := h
            subst hns
            rw [List.mem_singleton] at hmem
            subst hmem
            refine ⟨fun c hc => ?_, fun r hr => ?_⟩
            · rw [Option.mem_def, Option.some_inj] at hc
              exact hc ▸ parseFloatQ_nonneg _ _ hg4
            · rw [Option.mem_def, Option.some_inj] at hr
              exact hr ▸ Int.natCast_nonneg _
        · simp only [Except.ok.injEq, Prod.mk.injEq] at h
          obtain ⟨hns, _⟩ := h
          subst hns
          rw [List.mem_singleton] at hmem
          subst hmem
          refine ⟨fun c hc => ?_, fun r hr => ?_⟩
          · rw [Option.mem_def, Option.some_inj] at hc
            exact hc ▸ parseFloatQ_nonneg _ _ hg4
          · rw [Option.mem_def, Option.some_inj] at hr
            exact hr ▸ Int.natCast_nonneg _

theorem pgLines_nodes (lines : List (List Nat)) (ns : List ExplainNode)
    (is : List ExplainIssue) (h : pgLines lines = .ok (ns, is)) :
    ∀ node ∈ ns, (∀ c ∈ node.cost, 0 ≤ c) ∧ (∀ r ∈ node.rows, 0 ≤ r) := by
  induction lines generalizing ns is with
  | nil =>
    intro node hmem
    simp only [pgLines] at h
    cases h
    simp at hmem
  | cons line rest ih =>
    intro node hmem
    simp only [pgLines] at h
    split at h
    · exact ih ns is h node hmem
    · cases hline : pgLineNode line with
      | error e => rw [hline] at h; simp at h
      | ok pr =>
        obtain ⟨ns1, is1⟩ := pr
        rw [hline] at h
        cases hrest : pgLines rest with
        | error e => rw [hrest] at h; simp at h
        | ok pr2 =>
          obtain ⟨nsR, isR⟩ := pr2
          rw [hrest] at h
          simp only [Except.ok.injEq, Prod.mk.injEq] at h
          obtain ⟨hns, _⟩ := h
          subst hns
          rw [List.mem_append] at hmem
          rcases hmem with hmem | hmem
          · exact pgLineNode_nodes line ns1 is1 hline node hmem
          · exact ih nsR isR hrest node hmem

theorem mysqlTabularLine_nodes (line : List Nat) :
    ∀ node ∈ (mysqlTabularLine line).1, node.cost = none ∧ ∀ r ∈ node.rows, 0 ≤ r := by
  intro node hmem
  simp only [mysqlTabularLine] at hmem
  split at hmem
  · simp at hmem
  · split at hmem
    · rw [List.mem_singleton] at hmem
      subst hmem
      refine ⟨rfl, fun r hr => ?_⟩
      split at hr
      · split at hr
        · rw [Option.mem_def, Option.some_inj] at hr
          subst hr
          exact Int.natCast_nonneg _
        · simp at hr
      · simp at hr
    · simp at hmem

theorem parse_mysql_tabular_nodes (text : List Nat) :
    ∀ node ∈ (parse_mysql_tabular text).1, node.cost = none ∧ ∀ r ∈ node.rows, 0 ≤ r := by
  unfold parse_mysql_tabular
  induction splitSub (stripS text) [10] with
  | nil => intro node hmem; simp at hmem
  | cons line rest ih =>
    intro node hmem
    simp only [List.foldr_cons, List.mem_append] at hmem
    rcases hmem with hmem | hmem
    · exact mysqlTabularLine_nodes line node hmem
    · exact ih node hmem

/-- Non-negativity of every numeric leaf of a JSON document — the
hypothesis under which the JSON parser preserves the data-model
invariant. -/
inductive JsonNonneg : Json → Prop where
  | null : JsonNonneg .null
  | bool (b : Bool) : JsonNonneg (.bool b)
  | num (q : ℚ) (h : 0 ≤ q) : JsonNonneg (.num q)
  | str (s : List Nat) : JsonNonneg (.str s)
  | arr (l : List Json) (h : ∀ j ∈ l, JsonNonneg j) : JsonNonneg (.arr l)
  | obj (l : List (List Nat × Json)) (h : ∀ p ∈ l, JsonNonneg p.2) : JsonNonneg (.obj l)

theorem findSomeAssoc {l : List (List Nat × Json)} {k : List Nat} {v : Json}
    (h : l.findSome? (fun p => if p.1 == k then some p.2 else none) = some v) :
    ∃ p ∈ l, p.2 = v := by
  induction l with
  | nil => simp at h
  | cons p ps ih =>
    rw [List.findSome?_cons] at h
    by_cases hc : p.1 == k
    · rw [if_pos hc] at h
      cases h
      exact ⟨p, List.mem_cons_self _ _, rfl⟩
    · rw [if_neg hc] at h
      obtain ⟨p2, hp2, hv⟩ := ih h
      exact ⟨p2, List.mem_cons_of_mem _ hp2, hv⟩

theorem jsonNonneg_get {j : Json} {k : List Nat} {v : Json}
    (hj : JsonNonneg j) (h : jGet j k = some v) : JsonNonneg v := by
  cases j with
  | obj l =>
    obtain ⟨p, hp, rfl⟩ := findSomeAssoc h
    cases hj with
    | obj _ hall => exact hall p hp
  | null => simp [jGet] at h
  | bool b => simp [jGet] at h
  | num q => simp [jGet] at h
  | str s => simp [jGet] at h
  | arr l => simp [jGet] at h

theorem pbTable_nodes (block : Json) (hb : JsonNonneg block) :
    ∀ node ∈ (pbTable block).1, (∀ c ∈ node.cost, 0 ≤ c) ∧ (∀ r ∈ node.rows, 0 ≤ r) := by
  intro node hmem
  simp only [pbTable] at hmem
  split at hmem
  · rename_i t heq
    have ht : JsonNonneg t := jsonNonneg_get hb heq
    rw [List.mem_singleton] at hmem
    subst hmem
    refine ⟨fun c hc => ?_, fun r hr => ?_⟩
    · rcases hX : (jGet t (str2l "cost_info")).bind (fun ci => jGet ci (str2l "read_cost"))
        with _ | j
      · rw [hX] at hc
        simp at hc
      · rw [hX] at hc
        cases j with
        | num q =>
          simp only [Option.mem_def, Option.some_inj] at hc
          rw [← hc]
          rw [Option.bind_eq_some] at hX
          obtain ⟨ci, hci, hrc⟩ := hX
          have : JsonNonneg (.num q) := jsonNonneg_get (jsonNonneg_get ht hci) hrc
          cases this with
          | num _ hq => exact hq
        | null => simp at hc
        | bool b => simp at hc
        | str s2 => simp at hc
        | arr l => simp at hc
        | obj l => simp at hc
    · rcases hX : jGet t (str2l "rows_examined_per_scan") with _ | j
      · rw [hX] at hr
        simp at hr
      · rw [hX] at hr
        cases j with
        | num q =>
          simp only [Option.mem_def] at hr
          split at hr
          · rw [Option.some_inj] at hr
            rw [← hr]
            have : JsonNonneg (.num q) := jsonNonneg_get ht hX
            cases this with
            | num _ hq => exact Rat.num_nonneg.mpr hq
          · simp at hr
        | null => simp at hr
        | bool b => simp at hr
        | str s2 => simp at hr
        | arr l => simp at hr
        | obj l => simp at hr
  · simp at hmem

theorem pbFold_mem (f : Json → List ExplainNode × List ExplainIssue) (items : List Json)
    (node : ExplainNode) (h : node ∈ (pbFold f items).1) :
    ∃ item ∈ items, (∃ kvs, item = .obj kvs) ∧ node ∈ (f item).1 := by
  induction items with
  | nil => simp [pbFold] at h
  | cons item rest ih =>
    simp only [pbFold, List.foldr_cons, pbAppend, List.mem_append] at h
    rcases h with h | h
    · unfold pbItem at h
      split at h
      · rename_i kvs
        exact ⟨.obj kvs, List.mem_cons_self _ _, ⟨kvs, rfl⟩, h⟩
      · simp at h
    · obtain ⟨it, hit, hobj, hn⟩ := ih h
      exact ⟨it, List.mem_cons_of_mem _ hit, hobj, hn⟩

theorem pbItems_nonneg {v item : Json} (hv : JsonNonneg v) (h : item ∈ pbItems v) :
    JsonNonneg item := by
  cases v with
  | arr l =>
    cases hv with
    | arr _ hall => exact hall item (by simpa [pbItems] using h)
  | null => rw [show pbItems .null = [.null] from rfl, List.mem_singleton] at h; subst h; exact hv
  | bool b => rw [show pbItems (.bool b) = [.bool b] from rfl, List.mem_singleton] at h; subst h; exact hv
  | num q => rw [show pbItems (.num q) = [.num q] from rfl, List.mem_singleton] at h; subst h; exact hv
  | str s2 => rw [show pbItems (.str s2) = [.str s2] from rfl, List.mem_singleton] at h; subst h; exact hv
  | obj l => rw [show pbItems (.obj l) = [.obj l] from rfl, List.mem_singleton] at h; subst h; exact hv

theorem keysFold_mem (g : List Nat → List ExplainNode × List ExplainIssue)
    (ks : List (List Nat)) (node : ExplainNode)
    (h : node ∈ ((ks.foldr (fun k acc => pbAppend (g k) acc) ([], [])).1)) :
    ∃ k ∈ ks, node ∈ (g k).1 := by
  induction ks with
  | nil => simp at h
  | cons k rest ih =>
    simp only [List.foldr_cons, pbAppend, List.mem_append] at h
    rcases h with h | h
    · exact ⟨k, List.mem_cons_self _ _, h⟩
    · obtain ⟨k2, hk2, hn⟩ := ih h
      exact ⟨k2, List.mem_cons_of_mem _ hk2, hn⟩

theorem processBlock_nodes (fuel : Nat) :
    ∀ block : Json, JsonNonneg block →
      ∀ node ∈ (processBlock fuel block).1,
        (∀ c ∈ node.cost, 0 ≤ c) ∧ (∀ r ∈ node.rows, 0 ≤ r) := by
  induction fuel with
  | zero => intro block _ node hmem; simp [processBlock] at hmem
  | succ f ih =>
    intro block hb node hmem
    simp only [processBlock, pbAppend, List.mem_append] at hmem
    rcases hmem with hmem | hmem
    · exact pbTable_nodes block hb node hmem
    · obtain ⟨k, _, hn⟩ := keysFold_mem _ _ _ hmem
      unfold pbNested at hn
      split at hn
      · rename_i v heq
        have hv : JsonNonneg v := jsonNonneg_get hb heq
        obtain ⟨item, hitem, _, hnode⟩ := pbFold_mem _ _ _ hn
        exact ih item (pbItems_nonneg hv hitem) node hnode
      · simp at hn

/-- C5 (amended).  Every PlanNode from the PostgreSQL text parser and
the MySQL tabular parser has a non-negative cost (when present) and
non-negative row estimate (when present) — their values come from
digit-only captures.  The MySQL JSON parser copies `read_cost` /
`rows_examined_per_scan` verbatim, so the invariant holds exactly
under the assumption that the input document's numeric leaves are
non-negative. -/
theorem plan_node_nonneg_spec :
    (∀ (text : List Nat) (ns : List ExplainNode) (is : List ExplainIssue),
      parse_postgres_explain text = .ok (ns, is) →
      ∀ node ∈ ns, (∀ c ∈ node.cost, 0 ≤ c) ∧ (∀ r ∈ node.rows, 0 ≤ r))
    ∧ (∀ text : List Nat, ∀ node ∈ (parse_mysql_tabular text).1,
        node.cost = none ∧ ∀ r ∈ node.rows, 0 ≤ r)
    ∧ (∀ data : Json, JsonNonneg data →
        ∀ node ∈ (parse_mysql_explain_json data).1,
          (∀ c ∈ node.cost, 0 ≤ c) ∧ (∀ r ∈ node.rows, 0 ≤ r)) := by
  refine ⟨fun text ns is h => pgLines_nodes _ ns is h,
    fun text => parse_mysql_tabular_nodes text,
    fun data hd => ?_⟩
  unfold parse_mysql_explain_json jGetD
  cases heq : jGet data (str2l "query_block") with
  | none => simpa using processBlock_nodes _ data hd
  | some v => simpa using processBlock_nodes _ v (jsonNonneg_get hd heq)

/-- A well-formed MySQL EXPLAIN JSON document carrying a negative
`read_cost`. -/
def cexJson : Json :=
  .obj [(str2l "query_block",
    .obj [(str2l "table",
      .obj [(str2l "access_type", .str (str2l "range")),
            (str2l "table_name", .str (str2l "users")),
            (str2l "cost_info", .obj [(str2l "read_cost", .num (-5))]),
            (str2l "rows_examined_per_scan", .num 100)])])]

/-- C5 (counterexample).  The JSON parser performs no validation: a
document with `read_cost = -5` produces a PlanNode whose cost is
present and negative, so the unconditional non-negativity claim is
false for the third parser. -/
theorem json_parser_negative_cost_cex :
    (parse_mysql_explain_json cexJson).1.map ExplainNode.cost = [some (-5 : ℚ)]
    ∧ ¬ (0 : ℚ) ≤ (-5 : ℚ) := by
  constructor
  · decide
  · norm_num

/-! ### C8: normalizer idempotence -/

/-- C8 (counterexample).  `normalize_query` is not idempotent: on
`%(a1)s2` the first pass masks the `%(a1)s` placeholder, exposing the
digit `2` to a word boundary that only the second pass masks. -/
theorem normalize_not_idempotent_cex :
    normalize_query (normalize_query (str2l "%(a1)s2"))
      ≠ normalize_query (str2l "%(a1)s2")
    ∧ normalize_query (str2l "%(a1)s2") = str2l "?2"
    ∧ normalize_query (str2l "?2") = str2l "??" :=
  ⟨by decide, by decide, by decide⟩

theorem subGo_id (tryM : Option Nat → List Nat → Option (List Nat × Nat)) (fuel : Nat)
    (prev : Option Nat) (s : List Nat)
    (h : ∀ p t, t <:+ s → tryM p t = none) : subGo tryM fuel prev s = s := by
  induction fuel generalizing prev s with
  | zero => rfl
  | succ f ih =>
    cases s with
    | nil => rfl
    | cons c cs =>
      simp only [subGo, h prev (c :: cs) (List.suffix_refl _)]
      rw [ih (some c) cs (fun p t ht => h p t (ht.trans (List.suffix_cons c cs)))]

theorem subRe_id (tryM : Option Nat → List Nat → Option (List Nat × Nat)) (s : List Nat)
    (h : ∀ p t, t <:+ s → tryM p t = none) : subRe tryM s = s :=
  subGo_id tryM s.length none s h

theorem trySQuote_none (p : Option Nat) (t : List Nat) (h : (39 : Nat) ∉ t) :
    trySQuote p t = none := by
  unfold trySQuote
  split
  · simp at h
  · rfl

theorem tryDollar_none (p : Option Nat) (t : List Nat) (h : (36 : Nat) ∉ t) :
    tryDollar p t = none := by
  unfold tryDollar
  split
  · simp at h
  · rfl

theorem tryColon_none (p : Option Nat) (t : List Nat) (h : (58 : Nat) ∉ t) :
    tryColon p t = none := by
  unfold tryColon
  split
  · simp at h
  · rfl

theorem tryPctParen_none (p : Option Nat) (t : List Nat) (h : (40 : Nat) ∉ t) :
    tryPctParen p t = none := by
  unfold tryPctParen
  split
  · simp at h
  · rfl

theorem tryPctS_none (p : Option Nat) (t : List Nat)
    (h : ∀ c ∈ t, ¬(97 ≤ c ∧ c ≤ 122)) : tryPctS p t = none := by
  unfold tryPctS
  split
  · rename_i rest
    exact absurd ⟨by norm_num, by norm_num⟩ (h 115 (by simp))
  · rfl

theorem tryNum_none (p : Option Nat) (t : List Nat)
    (h : ∀ c ∈ t, isDigitC c = false) : tryNum p t = none := by
  unfold tryNum
  split
  · rename_i c cs
    have hc : isDigitC c = false := h c (List.mem_cons_self _ _)
    simp [hc]
  · rfl

theorem tryInList_none (p : Option Nat) (t : List Nat) (h : (40 : Nat) ∉ t) :
    tryInList p t = none := by
  unfold tryInList
  split
  · rename_i a b rest
    split_ifs with hcond
    · rcases hsp : spanP (fun c => isWsC c) rest with ⟨ws, r1⟩
      have happ : ws ++ r1 = rest := by
        have h2 := spanP_append (fun c => isWsC c) rest
        rw [hsp] at h2
        exact h2
      dsimp only
      split
      · rename_i r2
        exfalso
        apply h
        have h40 : (40 : Nat) ∈ rest := by
          rw [← happ]
          exact List.mem_append_right _ (List.mem_cons_self _ _)
        exact List.mem_cons_of_mem _ (List.mem_cons_of_mem _ h40)
      · rfl
    · rfl
  · rfl

theorem mem_upS (y : List Nat) (c : Nat) (hc : c ∈ upS y) : ¬(97 ≤ c ∧ c ≤ 122) := by
  rw [upS, List.mem_map] at hc
  obtain ⟨d, _, rfl⟩ := hc
  unfold upC
  split
  · rename_i hd
    simp only [Bool.and_eq_true, decide_eq_true_eq] at hd
    omega
  · rename_i hd
    simp only [Bool.and_eq_true, decide_eq_true_eq, not_and, not_le] at hd
    intro hcon
    omega

theorem upC_idem (c : Nat) : upC (upC c) = upC c := by
  unfold upC
  split
  · rename_i hd
    simp only [Bool.and_eq_true, decide_eq_true_eq] at hd
    rw [if_neg]
    simp only [Bool.and_eq_true, decide_eq_true_eq, not_and, not_le]
    omega
  · rfl

theorem upS_idem (x : List Nat) : upS (upS x) = upS x := by
  induction x with
  | nil => rfl
  | cons c cs ih =>
    simp only [upS, List.map_cons] at ih ⊢
    rw [upC_idem]
    simpa using ih

theorem stripExecuting_id (s : List Nat) (h : ∀ c ∈ s, ¬(97 ≤ c ∧ c ≤ 122)) :
    stripExecuting s = s := by
  unfold stripExecuting
  rw [if_neg]
  intro hp
  rw [ List.isPrefixOf_iff_prefix] at hp
  exact h 120 (hp.subset (by decide)) ⟨by norm_num, by norm_num⟩

theorem stripQueryPfx_id (s : List Nat) (h : ∀ c ∈ s, ¬(97 ≤ c ∧ c ≤ 122)) :
    stripQueryPfx s = s := by
  unfold stripQueryPfx
  rw [if_neg]
  intro hp
  rw [ List.isPrefixOf_iff_prefix] at hp
  exact h 117 (hp.subset (by decide)) ⟨by norm_num, by norm_num⟩

/-- C8 (amended).  The pipeline is idempotent on every input whose
normalized form is already whitespace-collapsed and contains no
digits, single quotes, opening parentheses, dollar signs or colons:
on such outputs every masking stage is the identity.  (The
counterexample above shows the unconditional statement is false.) -/
theorem normalize_idempotent_amended (s : List Nat)
    (hws : wsCollapse (normalize_query s) = normalize_query s)
    (hdig : ∀ c ∈ normalize_query s, isDigitC c = false)
    (hchars : ∀ c ∈ normalize_query s, c ≠ 39 ∧ c ≠ 40 ∧ c ≠ 36 ∧ c ≠ 58) :
    normalize_query (normalize_query s) = normalize_query s := by
  have hnl : ∀ c ∈ normalize_query s, ¬(97 ≤ c ∧ c ≤ 122) := by
    intro c hc
    unfold normalize_query at hc
    exact mem_upS _ c hc
  have h39 : (39 : Nat) ∉ normalize_query s := fun hm => (hchars 39 hm).1 rfl
  have h40 : (40 : Nat) ∉ normalize_query s := fun hm => (hchars 40 hm).2.1 rfl
  have h36 : (36 : Nat) ∉ normalize_query s := fun hm => (hchars 36 hm).2.2.1 rfl
  have h58 : (58 : Nat) ∉ normalize_query s := fun hm => (hchars 58 hm).2.2.2 rfl
  have e1 : stripExecuting (normalize_query s) = normalize_query s :=
    stripExecuting_id _ hnl
  have e2 : stripQueryPfx (normalize_query s) = normalize_query s :=
    stripQueryPfx_id _ hnl
  have e4 : subSQuote (normalize_query s) = normalize_query s :=
    subRe_id _ _ (fun p t ht => trySQuote_none p t (fun hm => h39 (ht.subset hm)))
  have e5 : subNum (normalize_query s) = normalize_query s :=
    subRe_id _ _ (fun p t ht => tryNum_none p t (fun c hc => hdig c (ht.subset hc)))
  have e6 : subInList (normalize_query s) = normalize_query s :=
    subRe_id _ _ (fun p t ht => tryInList_none p t (fun hm => h40 (ht.subset hm)))
  have e7 : subDollar (normalize_query s) = normalize_query s :=
    subRe_id _ _ (fun p t ht => tryDollar_none p t (fun hm => h36 (ht.subset hm)))
  have e8 : subColon (normalize_query s) = normalize_query s :=
    subRe_id _ _ (fun p t ht => tryColon_none p t (fun hm => h58 (ht.subset hm)))
  have e9 : subPctParen (normalize_query s) = normalize_query s :=
    subRe_id _ _ (fun p t ht => tryPctParen_none p t (fun hm => h40 (ht.subset hm)))
  have e10 : subPctS (normalize_query s) = normalize_query s :=
    subRe_id _ _ (fun p t ht => tryPctS_none p t (fun c hc => hnl c (ht.subset hc)))
  have e11 : upS (normalize_query s) = normalize_query s := by
    conv_lhs => rw [normalize_query]
    conv_rhs => rw [normalize_query]
    exact upS_idem _
  conv_lhs => rw [normalize_query]
  rw [e1, e2, hws, e4, e5, e6, e7, e8, e9, e10, e11]

/-! ### Witnesses -/

/-- The single issue `detect_n_plus_one` emits on `burstLog`. -/
def burstIssue : Issue :=
  { severity := str2l "HIGH"
    category := str2l "N+1 Query"
    message := str2l "Detected 5 similar queries executed in sequence"
    queries := [str2l "SELECT * FROM orders WHERE user_id = 1",
                str2l "SELECT * FROM orders WHERE user_id = 2",
                str2l "SELECT * FROM orders WHERE user_id = 3"]
    suggestion := str2l "Use eager loading (include/preload/prefetch_related) to fetch related data in one query" }

theorem n_plus_one_burst_spec_witness :
    burstIssue.severity = str2l "HIGH" ∧ burstIssue.category = str2l "N+1 Query" :=
  ⟨((n_plus_one_burst_spec.1 burstLog).2 burstIssue (by decide)).1,
   ((n_plus_one_burst_spec.1 burstLog).2 burstIssue (by decide)).2.1⟩

theorem n_plus_one_option_contract_witness :
    (dedupFirst (([] : List Query).map Query.normalized)).filter
      (fun k => nPlusOneQualifies (occOf [] k)) = [] :=
  (n_plus_one_option_contract []).1.mp (by decide)

def pgWitnessLine : List Nat :=
  str2l "Seq Scan on users  (cost=0.00..431.00 rows=10000 width=244)"

def pgWitnessNode : ExplainNode :=
  { node_type := str2l "Seq Scan"
    relation := some (str2l "users")
    cost := some (mkRat 43100 100)
    rows := some 10000
    actual_time := none
    actual_rows := none
    loops := none
    raw := pgWitnessLine }

def pgWitnessIssue : ExplainIssue :=
  { severity := str2l "MEDIUM"
    node_type := str2l "Seq Scan"
    message := str2l "Sequential scan on users"
    suggestion := str2l "Consider adding an index on filtered/joined columns" }

theorem plan_node_nonneg_spec_witness :
    (0 : ℚ) ≤ mkRat 43100 100 :=
  (plan_node_nonneg_spec.1 pgWitnessLine [pgWitnessNode] [pgWitnessIssue]
    (by decide) pgWitnessNode (by decide)).1 (mkRat 43100 100) rfl

theorem row_ratio_heuristic_spec_witness :
    10 < ((5000 : Int) : ℚ) / ((100 : Int) : ℚ)
      ∨ ((5000 : Int) : ℚ) / ((100 : Int) : ℚ) < 1 / 10 :=
  (row_ratio_heuristic_spec.1 [] 100 5000 (by decide)).mp (by decide)

theorem missing_where_spec_witness :
    (detect_missing_where [parse_query (str2l "SELECT * FROM users")]).length
      = ([parse_query (str2l "SELECT * FROM users")].filter (fun q =>
          q.query_type == str2l "SELECT" && !q.has_where && !q.has_limit)).length ∧
    (detect_missing_where [parse_query (str2l "SELECT * FROM users")]).length = 1 :=
  ⟨(missing_where_spec.1 [parse_query (str2l "SELECT * FROM users")]).1, by decide⟩

theorem detector_totality_guard_witness :
    2 ≤ (splitSub (str2l "SELECT * FROM t") (str2l "FROM")).length :=
  detector_totality_guard.1 (str2l "SELECT * FROM t") (by decide)

theorem mysql_tabular_line_iff_witness :
    mysqlTabularLine (str2l "+----+-------------+") = ([], []) :=
  (mysql_tabular_line_iff.1 (str2l "+----+-------------+")).2 (by decide)

theorem normalize_idempotent_amended_witness :
    normalize_query (normalize_query (str2l "SELECT name FROM users"))
      = normalize_query (str2l "SELECT name FROM users") :=
  normalize_idempotent_amended (str2l "SELECT name FROM users")
    (by decide) (by decide) (by decide)
